import Mathlib

/-!
Verification of the cost allocation engine of the insurance comparison app
(`src/app.py`).  The engine is embedded shallowly: dollar amounts are exact
rationals (the Python source uses floats; the spec's 0.01 tolerances are kept
in the embedded assertion checks), usage vectors are ordered association lists
(Python dict iteration order), and Python's exception-based control flow
(`KeyError` from failed dict lookups, `AssertionError` from `assert`,
`ZeroDivisionError`) is made explicit with `Except`.
-/

/-- Decidable equality of `Except` values, so concrete runs of the engine can
be checked by `decide`. -/
instance {ε α : Type _} [DecidableEq ε] [DecidableEq α] :
    DecidableEq (Except ε α) := fun x y =>
  match x, y with
  | .error a, .error b => decidable_of_iff (a = b) (by simp)
  | .error _, .ok _ => isFalse (fun h => Except.noConfusion h)
  | .ok _, .error _ => isFalse (fun h => Except.noConfusion h)
  | .ok a, .ok b => decidable_of_iff (a = b) (by simp)

namespace InsuranceApp

/-- The fixed service categories of the app (the keys of `base_service_costs`
and of `usage` dictionaries in `src/app.py`). -/
inductive Service where
  | primary_care
  | specialist
  | urgent_care
  | emergency_room
  | lab_work
  | generic_drugs
  | specialty_drugs
  | ambulance
  | hospital_stay
deriving DecidableEq, Fintype, Repr

/-- The `in_network` sub-dictionary of a resolved cost-sharing rule.
Python stores an untyped dict; the fields the engine reads are modelled as
optional, `none` meaning the key is absent (reading it raises `KeyError`). -/
structure InNetwork where
  copay : Option ℚ
  coinsurance : Option ℚ
  retail_copay : Option ℚ
  retail_coinsurance : Option ℚ
  retail_max : Option ℚ
deriving DecidableEq, Repr

/-- The fields of `InsurancePlan` that the allocation engine reads.
`deductibles["overall"]` and `out_of_pocket_limit["individual"]` are
flattened to single fields; `cost_sharing` collapses the nested-path lookup
through `service_mapping` into a single lookup keyed by service category,
`none` meaning some path segment is missing (a `KeyError` in Python). -/
structure InsurancePlan where
  premium : ℚ
  deductible_overall : ℚ
  oop_individual : ℚ
  cost_sharing : Service → Option InNetwork
  services_covered_before_deductible : List Service

/-- The Python exceptions the engine can raise. -/
inductive CalcError where
  | keyError
  | assertionError
  | zeroDivisionError
deriving DecidableEq, Repr

/-- `base_service_costs` (src/app.py lines 85-95). -/
def base_service_costs : Service → ℚ
  | .primary_care => 150
  | .specialist => 250
  | .urgent_care => 200
  | .emergency_room => 1000
  | .lab_work => 300
  | .generic_drugs => 30
  | .specialty_drugs => 600
  | .ambulance => 1200
  | .hospital_stay => 2500

/-- One loop iteration of the first pass of `calculate_service_costs`
(src/app.py lines 98-153): given the current `accumulated_deductible`,
returns the service's cost and the updated accumulator, or the Python
exception the iteration raises. -/
def serviceCost (plan : InsurancePlan) (s : Service) (visits : ℕ)
    (accumulated_deductible : ℚ) : Except CalcError (ℚ × ℚ) :=
  if visits = 0 then
    .ok (0, accumulated_deductible)
  else
    let base_cost : ℚ := base_service_costs s * visits
    match plan.cost_sharing s with
    | none => .error .keyError
    | some in_network =>
      match in_network.copay with
      | some cp => .ok ((visits : ℚ) * cp, accumulated_deductible)
      | none =>
        if s = .generic_drugs ∨ s = .specialty_drugs then
          if s = .generic_drugs then
            match in_network.retail_copay with
            | some rc => .ok ((visits : ℚ) * rc, accumulated_deductible)
            | none => .error .keyError
          else
            match in_network.retail_coinsurance, in_network.retail_max with
            | some rco, some rmax =>
                .ok (min (base_cost * (rco / 100)) ((visits : ℚ) * rmax),
                     accumulated_deductible)
            | _, _ => .error .keyError
        else
          if s ∈ plan.services_covered_before_deductible then
            match in_network.coinsurance with
            | some co => .ok (base_cost * (co / 100), accumulated_deductible)
            | none => .error .keyError
          else
            let remaining_deductible :=
              max 0 (plan.deductible_overall - accumulated_deductible)
            if 0 < remaining_deductible then
              let deductible_portion := min base_cost remaining_deductible
              let acc2 := accumulated_deductible + deductible_portion
              if deductible_portion < base_cost then
                let remaining_cost := base_cost - deductible_portion
                match in_network.copay with
                | some cp => .ok (deductible_portion + (visits : ℚ) * cp, acc2)
                | none =>
                  match in_network.coinsurance with
                  | some co =>
                      .ok (deductible_portion + remaining_cost * (co / 100), acc2)
                  | none => .error .keyError
              else
                .ok (deductible_portion, acc2)
            else
              match in_network.copay with
              | some cp => .ok ((visits : ℚ) * cp, accumulated_deductible)
              | none =>
                match in_network.coinsurance with
                | some co => .ok (base_cost * (co / 100), accumulated_deductible)
                | none => .error .keyError

/-- The whole first pass of `calculate_service_costs`: iterate the usage
vector in caller order, threading `accumulated_deductible`, collecting the
per-service costs in order; an exception aborts the loop. -/
def firstPass (plan : InsurancePlan) :
    List (Service × ℕ) → ℚ → Except CalcError (List (Service × ℚ) × ℚ)
  | [], acc => .ok ([], acc)
  | (s, v) :: rest, acc =>
    match serviceCost plan s v acc with
    | .error e => .error e
    | .ok (c, acc2) =>
      match firstPass plan rest acc2 with
      | .error e => .error e
      | .ok (costs, accEnd) => .ok ((s, c) :: costs, accEnd)

/-- Sum of the values of a per-service cost mapping (`sum(result.values())`;
dict keys are unique, so `accumulated_total` in the source equals this sum). -/
def sumCosts (l : List (Service × ℚ)) : ℚ := (l.map Prod.snd).sum

/-- `calculate_service_costs` (src/app.py lines 73-166): first pass, then the
out-of-pocket normalization pass and its assertion.  In Python
`out_of_pocket_max / accumulated_total` raises `ZeroDivisionError` when the
total is zero; that case is modelled explicitly since rational division by
zero would silently return 0. -/
def calculate_service_costs (plan : InsurancePlan) (usage : List (Service × ℕ)) :
    Except CalcError (List (Service × ℚ)) :=
  match firstPass plan usage 0 with
  | .error e => .error e
  | .ok (service_costs, _) =>
    let accumulated_total := sumCosts service_costs
    let out_of_pocket_max := plan.oop_individual
    if out_of_pocket_max < accumulated_total then
      if accumulated_total = 0 then .error .zeroDivisionError
      else
        let adjustment := out_of_pocket_max / accumulated_total
        let scaled := service_costs.map (fun p => (p.1, p.2 * adjustment))
        let total_medical := sumCosts scaled
        if |total_medical - out_of_pocket_max| < 1 / 100 then .ok scaled
        else .error .assertionError
    else .ok service_costs

/-- The record returned by `calculate_annual_cost` (src/app.py lines 182-187). -/
structure AnnualCost where
  annual_premium : ℚ
  medical_costs : ℚ
  total_cost : ℚ
  service_costs : List (Service × ℚ)
deriving DecidableEq, Repr

/-- `calculate_annual_cost` (src/app.py lines 168-187), including its
assertion that the total never exceeds premium plus out-of-pocket limit. -/
def calculate_annual_cost (plan : InsurancePlan) (usage : List (Service × ℕ)) :
    Except CalcError AnnualCost :=
  let annual_premium := plan.premium * 12
  match calculate_service_costs plan usage with
  | .error e => .error e
  | .ok service_costs =>
    let total_medical_costs := sumCosts service_costs
    let total_cost := annual_premium + total_medical_costs
    let max_possible_cost := annual_premium + plan.oop_individual
    if total_cost ≤ max_possible_cost + 1 / 100 then
      .ok ⟨annual_premium, total_medical_costs, total_cost, service_costs⟩
    else .error .assertionError

/-- Python's `round` on the engine's (non-negative) values: round half to
even, as applied in `usage = {k: round(max(0, v)) for k, v in usage.items()}`
(src/app.py line 231). -/
def pyRound (q : ℚ) : ℤ :=
  if q - ⌊q⌋ < 1 / 2 then ⌊q⌋
  else if 1 / 2 < q - ⌊q⌋ then ⌊q⌋ + 1
  else if ⌊q⌋ % 2 = 0 then ⌊q⌋ else ⌊q⌋ + 1

/-- The insertion order of the `usage` dict literal in
`generate_cost_curve_data` (src/app.py lines 196-206); Python dicts iterate
in insertion order, and the tier assignments only update existing keys. -/
def curveOrder : List Service :=
  [.primary_care, .specialist, .urgent_care, .emergency_room, .lab_work,
   .generic_drugs, .specialty_drugs, .ambulance, .hospital_stay]

/-- Low-tier assignments of `generate_cost_curve_data`
(src/app.py lines 210-212); unassigned services keep their initial 0. -/
def lowTierCount (raw_cost : ℚ) : Service → ℚ
  | .primary_care => raw_cost * 0.6 / 150
  | .generic_drugs => raw_cost * 0.4 / 30
  | _ => 0

/-- Medium-tier assignments (src/app.py lines 215-220). -/
def midTierCount (raw_cost : ℚ) : Service → ℚ
  | .primary_care => raw_cost * 0.3 / 150
  | .specialist => raw_cost * 0.3 / 250
  | .urgent_care => raw_cost * 0.2 / 200
  | .generic_drugs => raw_cost * 0.1 / 30
  | .lab_work => raw_cost * 0.1 / 300
  | _ => 0

/-- High-tier assignments (src/app.py lines 223-228). -/
def highTierCount (raw_cost : ℚ) : Service → ℚ
  | .hospital_stay => raw_cost * 0.4 / 2500
  | .emergency_room => raw_cost * 0.2 / 1000
  | .specialist => raw_cost * 0.15 / 250
  | .lab_work => raw_cost * 0.15 / 300
  | .specialty_drugs => raw_cost * 0.1 / 600
  | _ => 0

/-- The fractional unit counts assigned by the tier branches of
`generate_cost_curve_data` (src/app.py lines 208-228). -/
def synthUsageRaw (raw_cost : ℚ) (s : Service) : ℚ :=
  if 0 < raw_cost then
    if raw_cost ≤ 1000 then lowTierCount raw_cost s
    else if raw_cost ≤ 5000 then midTierCount raw_cost s
    else highTierCount raw_cost s
  else 0

/-- The usage vector synthesized for one raw-cost level
(src/app.py lines 196-231): tier shares, then `round(max(0, v))` per entry,
keeping the dict's insertion order. -/
def curveUsage (raw_cost : ℚ) : List (Service × ℕ) :=
  curveOrder.map fun s => (s, (pyRound (max 0 (synthUsageRaw raw_cost s))).toNat)

/-- The raw-cost levels `[i * (max_medical_cost / points) for i in
range(points + 1)]` (src/app.py line 191). -/
def medicalCostLevels (max_medical_cost : ℚ) (points : ℕ) : List ℚ :=
  (List.range (points + 1)).map fun (i : ℕ) => (i : ℚ) * (max_medical_cost / points)

/-- The `for raw_cost in medical_costs` loop of `generate_cost_curve_data`
(src/app.py lines 194-234): for every level, synthesize a usage vector and
append the resulting `total_cost`; a Python exception from
`calculate_annual_cost` aborts the whole sweep. -/
def curveTotals (plan : InsurancePlan) : List ℚ → Except CalcError (List ℚ)
  | [] => .ok []
  | raw :: rest =>
    match calculate_annual_cost plan (curveUsage raw) with
    | .error e => .error e
    | .ok a =>
      match curveTotals plan rest with
      | .error e => .error e
      | .ok ts => .ok (a.total_cost :: ts)

/-- `generate_cost_curve_data` (src/app.py lines 189-236). -/
def generate_cost_curve_data (plan : InsurancePlan) (max_medical_cost : ℚ)
    (points : ℕ) : Except CalcError (List ℚ × List ℚ) :=
  let medical_costs := medicalCostLevels max_medical_cost points
  match curveTotals plan medical_costs with
  | .error e => .error e
  | .ok total_costs => .ok (medical_costs, total_costs)

/-! ### Rule-resolvability predicates -/

/-- The category's rule resolves and carries every field the engine can need
for it, whatever the deductible state: this is what the spec's precondition
"every non-zero-count category has a resolvable cost-sharing rule" demands. -/
def ruleComplete (plan : InsurancePlan) (s : Service) : Bool :=
  match plan.cost_sharing s with
  | none => false
  | some r =>
    r.copay.isSome ||
    (if s = .generic_drugs then r.retail_copay.isSome
     else if s = .specialty_drugs then
       r.retail_coinsurance.isSome && r.retail_max.isSome
     else r.coinsurance.isSome)

/-- The category's rule is missing, or it is a drug tier missing a required
sub-field (`retail_copay`, or `retail_coinsurance`/`retail_max`): processing
the category with a non-zero count raises `KeyError` unconditionally. -/
def unresolvable (plan : InsurancePlan) (s : Service) : Bool :=
  match plan.cost_sharing s with
  | none => true
  | some r =>
    r.copay.isNone &&
      ((s = .generic_drugs && r.retail_copay.isNone) ||
       (s = .specialty_drugs &&
         (r.retail_coinsurance.isNone || r.retail_max.isNone)))

/-- The category is handled by a flat-copay rule or by a (complete) drug-tier
rule: its processing succeeds and never touches `accumulated_deductible`. -/
def copayOrDrugRule (plan : InsurancePlan) (s : Service) : Bool :=
  match plan.cost_sharing s with
  | none => false
  | some r =>
    r.copay.isSome ||
    (s = .generic_drugs && r.retail_copay.isSome) ||
    (s = .specialty_drugs && r.retail_coinsurance.isSome && r.retail_max.isSome)

/-! ### Dead-branch-free variant of the first-pass step (claim C10) -/

/-- `serviceCost` with the two `if "copay" in in_network` sub-branches inside
the deductible-subject path (src/app.py lines 140-141 and 148-149) removed:
the path is only reached when `copay` is absent, so those sub-branches are
dead code. -/
def serviceCostSimpl (plan : InsurancePlan) (s : Service) (visits : ℕ)
    (accumulated_deductible : ℚ) : Except CalcError (ℚ × ℚ) :=
  if visits = 0 then
    .ok (0, accumulated_deductible)
  else
    let base_cost : ℚ := base_service_costs s * visits
    match plan.cost_sharing s with
    | none => .error .keyError
    | some in_network =>
      match in_network.copay with
      | some cp => .ok ((visits : ℚ) * cp, accumulated_deductible)
      | none =>
        if s = .generic_drugs ∨ s = .specialty_drugs then
          if s = .generic_drugs then
            match in_network.retail_copay with
            | some rc => .ok ((visits : ℚ) * rc, accumulated_deductible)
            | none => .error .keyError
          else
            match in_network.retail_coinsurance, in_network.retail_max with
            | some rco, some rmax =>
                .ok (min (base_cost * (rco / 100)) ((visits : ℚ) * rmax),
                     accumulated_deductible)
            | _, _ => .error .keyError
        else
          if s ∈ plan.services_covered_before_deductible then
            match in_network.coinsurance with
            | some co => .ok (base_cost * (co / 100), accumulated_deductible)
            | none => .error .keyError
          else
            let remaining_deductible :=
              max 0 (plan.deductible_overall - accumulated_deductible)
            if 0 < remaining_deductible then
              let deductible_portion := min base_cost remaining_deductible
              let acc2 := accumulated_deductible + deductible_portion
              if deductible_portion < base_cost then
                let remaining_cost := base_cost - deductible_portion
                match in_network.coinsurance with
                | some co =>
                    .ok (deductible_portion + remaining_cost * (co / 100), acc2)
                | none => .error .keyError
              else
                .ok (deductible_portion, acc2)
            else
              match in_network.coinsurance with
              | some co => .ok (base_cost * (co / 100), accumulated_deductible)
              | none => .error .keyError

/-! ### Spec-side description of the usage synthesizer (claim C8) -/

/-- Follows the spec's words for the tier split of §4.3 / claim C8: the fixed
percentage share each tier assigns to each category (low tier for
raw ≤ 1000, medium for 1000 < raw ≤ 5000, high for raw > 5000); categories
not named in a tier get share 0. -/
def lowShareSpec : Service → ℚ
  | .primary_care => 0.6
  | .generic_drugs => 0.4
  | _ => 0

/-- Medium-tier percentage shares of §4.3. -/
def midShareSpec : Service → ℚ
  | .primary_care => 0.3
  | .specialist => 0.3
  | .urgent_care => 0.2
  | .generic_drugs => 0.1
  | .lab_work => 0.1
  | _ => 0

/-- High-tier percentage shares of §4.3. -/
def highShareSpec : Service → ℚ
  | .hospital_stay => 0.4
  | .emergency_room => 0.2
  | .specialist => 0.15
  | .lab_work => 0.15
  | .specialty_drugs => 0.1
  | _ => 0

/-- The tier applying to a raw-cost level, per §4.3 / claim C8. -/
def tierShareSpec (raw : ℚ) (s : Service) : ℚ :=
  if raw ≤ 1000 then lowShareSpec s
  else if raw ≤ 5000 then midShareSpec s
  else highShareSpec s

/-- Follows the spec's words: split the raw cost into the tier percentage
shares, divide each share by the category's base price, and round the
fractional count to the nearest non-negative integer; unnamed categories get
zero units. -/
def curveUsageSpec (raw : ℚ) : List (Service × ℕ) :=
  curveOrder.map fun s =>
    (s, (pyRound (max 0 (raw * tierShareSpec raw s / base_service_costs s))).toNat)

/-! ### Concrete plans and usage vectors for witnesses and counterexamples -/

/-- The §8 "concrete scenario" plan: premium $400/mo, deductible $1000,
out-of-pocket limit $5000, primary care a $30 copay, specialist 20 percent
coinsurance subject to the deductible. -/
def plan3 : InsurancePlan where
  premium := 400
  deductible_overall := 1000
  oop_individual := 5000
  cost_sharing := fun s =>
    match s with
    | .primary_care => some ⟨some 30, none, none, none, none⟩
    | .specialist => some ⟨none, some 20, none, none, none⟩
    | _ => none
  services_covered_before_deductible := []

/-- The §8 scenario usage vector: 2 primary-care visits, then 3 specialist
visits. -/
def usage3 : List (Service × ℕ) := [(.primary_care, 2), (.specialist, 3)]

/-- Like `plan3` but with a $100 out-of-pocket limit, so the §8 usage vector
triggers the proportional normalization pass. -/
def plan5w : InsurancePlan where
  premium := 400
  deductible_overall := 1000
  oop_individual := 100
  cost_sharing := fun s =>
    match s with
    | .primary_care => some ⟨some 30, none, none, none, none⟩
    | .specialist => some ⟨none, some 20, none, none, none⟩
    | _ => none
  services_covered_before_deductible := []

/-- Deductible $500; primary care (base $150/unit) and urgent care (base
$200/unit) both deductible-subject plain-coinsurance, at the given two
rates; out-of-pocket limit and premium as given. -/
def mkPlan4 (pA pB limit : ℚ) : InsurancePlan where
  premium := 0
  deductible_overall := 500
  oop_individual := limit
  cost_sharing := fun s =>
    match s with
    | .primary_care => some ⟨none, some pA, none, none, none⟩
    | .urgent_care => some ⟨none, some pB, none, none, none⟩
    | _ => none
  services_covered_before_deductible := []

/-- A plan with a complete rule for every category: primary care a $500
copay, every other category free ($0 copay or 0 percent coinsurance);
premium $0, deductible $0, out-of-pocket limit $1,000,000. -/
def plan9 : InsurancePlan where
  premium := 0
  deductible_overall := 0
  oop_individual := 1000000
  cost_sharing := fun s =>
    match s with
    | .primary_care => some ⟨some 500, none, none, none, none⟩
    | .specialist => some ⟨some 0, none, none, none, none⟩
    | .urgent_care => some ⟨some 0, none, none, none, none⟩
    | .emergency_room => some ⟨some 0, none, none, none, none⟩
    | .lab_work => some ⟨some 0, none, none, none, none⟩
    | .generic_drugs => some ⟨none, none, some 0, none, none⟩
    | .specialty_drugs => some ⟨none, none, none, some 0, some 0⟩
    | .ambulance => some ⟨some 0, none, none, none, none⟩
    | .hospital_stay => some ⟨none, some 0, none, none, none⟩
  services_covered_before_deductible := []

/-- A plan whose specialist rule is missing entirely (no entry), for the
error-handling claim. -/
def plan6w : InsurancePlan where
  premium := 100
  deductible_overall := 500
  oop_individual := 4000
  cost_sharing := fun s =>
    match s with
    | .primary_care => some ⟨some 25, none, none, none, none⟩
    | _ => none
  services_covered_before_deductible := []

/-! ## Lemmas about the first-pass step -/

theorem sumCosts_nil : sumCosts [] = 0 := rfl

theorem sumCosts_cons (p : Service × ℚ) (l : List (Service × ℚ)) :
    sumCosts (p :: l) = p.2 + sumCosts l := by
  simp [sumCosts]

theorem sumCosts_append (l1 l2 : List (Service × ℚ)) :
    sumCosts (l1 ++ l2) = sumCosts l1 + sumCosts l2 := by
  simp [sumCosts]

theorem sumCosts_scale (l : List (Service × ℚ)) (k : ℚ) :
    sumCosts (l.map fun p => (p.1, p.2 * k)) = sumCosts l * k := by
  induction l with
  | nil => simp [sumCosts]
  | cons p l ih =>
    simp only [List.map_cons, sumCosts_cons, ih]
    ring

/-- Every exception the first-pass step can raise is a `KeyError`. -/
theorem serviceCost_error_eq {plan : InsurancePlan} {s : Service} {v : ℕ}
    {acc : ℚ} {e : CalcError} (h : serviceCost plan s v acc = .error e) :
    e = .keyError := by
  simp only [serviceCost] at h
  repeat' split at h
  all_goals simp_all

/-- An unresolvable category with a non-zero count raises `KeyError`
whatever the accumulator state. -/
theorem serviceCost_unresolvable {plan : InsurancePlan} {s : Service} {v : ℕ}
    (hu : unresolvable plan s = true) (hv : v ≠ 0) (acc : ℚ) :
    serviceCost plan s v acc = .error .keyError := by
  unfold serviceCost
  unfold unresolvable at hu
  cases hcs : plan.cost_sharing s with
  | none => simp [hv, hcs]
  | some r =>
    rw [hcs] at hu
    cases hcp : r.copay with
    | some cp => simp [hcp] at hu
    | none =>
      simp only [hcp, Option.isNone_none, Bool.true_and, Bool.or_eq_true,
        Bool.and_eq_true, decide_eq_true_eq] at hu
      rcases hu with ⟨hs, hrc⟩ | ⟨hs, hrest⟩
      · subst hs
        simp [hv, hcp, Option.isNone_iff_eq_none.mp hrc]
      · subst hs
        rcases hrest with h1 | h2
        · simp [hv, hcp, Option.isNone_iff_eq_none.mp h1]
        · cases hrco : r.retail_coinsurance <;>
            simp [hv, hcp, hrco, Option.isNone_iff_eq_none.mp h2]

/-- A complete rule lets the first-pass step succeed whatever the count and
the accumulator state. -/
theorem serviceCost_complete {plan : InsurancePlan} {s : Service}
    (hc : ruleComplete plan s = true) (v : ℕ) (acc : ℚ) :
    ∃ out, serviceCost plan s v acc = .ok out := by
  by_cases hv : v = 0
  · refine ⟨(0, acc), ?_⟩
    simp [serviceCost, hv]
  unfold ruleComplete at hc
  cases hcs : plan.cost_sharing s with
  | none => simp [hcs] at hc
  | some r =>
    rw [hcs] at hc
    cases hcp : r.copay with
    | some cp => simp [serviceCost, hv, hcs, hcp]
    | none =>
      simp only [hcp, Option.isSome_none, Bool.false_or] at hc
      by_cases hg : s = Service.generic_drugs
      · subst hg
        rw [if_pos rfl] at hc
        obtain ⟨rc, hrc⟩ := Option.isSome_iff_exists.mp hc
        simp [serviceCost, hv, hcs, hcp, hrc]
      · by_cases hsp : s = Service.specialty_drugs
        · subst hsp
          rw [if_neg hg, if_pos rfl] at hc
          obtain ⟨h1, h2⟩ := Bool.and_eq_true _ _ |>.mp hc
          obtain ⟨rco, hrco⟩ := Option.isSome_iff_exists.mp h1
          obtain ⟨rmax, hrmax⟩ := Option.isSome_iff_exists.mp h2
          simp [serviceCost, hv, hcs, hcp, hrco, hrmax, hg]
        · rw [if_neg hg, if_neg hsp] at hc
          obtain ⟨co, hco⟩ := Option.isSome_iff_exists.mp hc
          have hdrug : ¬(s = Service.generic_drugs ∨ s = Service.specialty_drugs) := by
            simp [hg, hsp]
          by_cases hcov : s ∈ plan.services_covered_before_deductible
          · simp [serviceCost, hv, hcs, hcp, hco, hdrug, hcov]
          · simp only [serviceCost, if_neg hv, hcs, hcp, if_neg hdrug,
              if_neg hcov, hco]
            by_cases hrem : 0 < max 0 (plan.deductible_overall - acc)
            · rw [if_pos hrem]
              by_cases hlt :
                  min (base_service_costs s * v) (max 0 (plan.deductible_overall - acc)) <
                    base_service_costs s * v
              · rw [if_pos hlt]
                exact ⟨_, rfl⟩
              · rw [if_neg hlt]
                exact ⟨_, rfl⟩
            · rw [if_neg hrem]
              exact ⟨_, rfl⟩

/-- A copay- or drug-tier category is processed successfully and leaves the
deductible accumulator untouched. -/
theorem serviceCost_neutral {plan : InsurancePlan} {s : Service}
    (hc : copayOrDrugRule plan s = true) (v : ℕ) (acc : ℚ) :
    ∃ c, serviceCost plan s v acc = .ok (c, acc) := by
  by_cases hv : v = 0
  · exact ⟨0, by simp [serviceCost, hv]⟩
  unfold copayOrDrugRule at hc
  cases hcs : plan.cost_sharing s with
  | none => simp [hcs] at hc
  | some r =>
    rw [hcs] at hc
    cases hcp : r.copay with
    | some cp => simp [serviceCost, hv, hcs, hcp]
    | none =>
      simp only [hcp, Option.isSome_none, Bool.false_or, Bool.or_eq_true,
        Bool.and_eq_true, decide_eq_true_eq] at hc
      rcases hc with ⟨hs, hrc⟩ | ⟨⟨hs, h1⟩, h2⟩
      · subst hs
        obtain ⟨rc, hrc⟩ := Option.isSome_iff_exists.mp hrc
        simp [serviceCost, hv, hcs, hcp, hrc]
      · subst hs
        obtain ⟨rco, hrco⟩ := Option.isSome_iff_exists.mp h1
        obtain ⟨rmax, hrmax⟩ := Option.isSome_iff_exists.mp h2
        simp [serviceCost, hv, hcs, hcp, hrco, hrmax]

/-! ## Lemmas about the first pass -/

/-- If every non-zero-count category of the usage vector has a complete
rule, the first pass succeeds. -/
theorem firstPass_complete {plan : InsurancePlan} {usage : List (Service × ℕ)}
    (h : ∀ p ∈ usage, p.2 ≠ 0 → ruleComplete plan p.1 = true) (acc : ℚ) :
    ∃ r aEnd, firstPass plan usage acc = .ok (r, aEnd) := by
  induction usage generalizing acc with
  | nil => exact ⟨[], acc, rfl⟩
  | cons p rest ih =>
    obtain ⟨s, v⟩ := p
    have hstep : ∃ out, serviceCost plan s v acc = .ok out := by
      by_cases hv : v = 0
      · refine ⟨(0, acc), ?_⟩
        simp [serviceCost, hv]
      · exact serviceCost_complete (h (s, v) (by simp) hv) v acc
    obtain ⟨⟨c, acc2⟩, hsc⟩ := hstep
    obtain ⟨r, aEnd, hrest⟩ := ih (fun p hp => h p (List.mem_cons_of_mem _ hp)) acc2
    exact ⟨(s, c) :: r, aEnd, by simp [firstPass, hsc, hrest]⟩

/-- If the usage vector contains a non-zero-count category whose rule cannot
be resolved, the first pass raises `KeyError`. -/
theorem firstPass_unresolvable {plan : InsurancePlan} {usage : List (Service × ℕ)}
    {s : Service} {v : ℕ} (hmem : (s, v) ∈ usage) (hv : v ≠ 0)
    (hu : unresolvable plan s = true) (acc : ℚ) :
    firstPass plan usage acc = .error .keyError := by
  induction usage generalizing acc with
  | nil => cases hmem
  | cons p rest ih =>
    rcases List.mem_cons.mp hmem with heq | hmem'
    · subst heq
      simp [firstPass, serviceCost_unresolvable hu hv acc]
    · obtain ⟨s', v'⟩ := p
      cases hsc : serviceCost plan s' v' acc with
      | error e =>
        rw [serviceCost_error_eq hsc] at hsc
        simp [firstPass, hsc]
      | ok out =>
        obtain ⟨c, acc2⟩ := out
        simp [firstPass, hsc, ih hmem' acc2]

/-- The first pass distributes over list append, threading the accumulator. -/
theorem firstPass_append (plan : InsurancePlan) (xs ys : List (Service × ℕ))
    (acc : ℚ) :
    firstPass plan (xs ++ ys) acc =
      match firstPass plan xs acc with
      | .error e => .error e
      | .ok (r1, a1) =>
        match firstPass plan ys a1 with
        | .error e => .error e
        | .ok (r2, a2) => .ok (r1 ++ r2, a2) := by
  induction xs generalizing acc with
  | nil =>
    cases h : firstPass plan ys acc with
    | error e => simp [firstPass, h]
    | ok out => obtain ⟨r2, a2⟩ := out; simp [firstPass, h]
  | cons p rest ih =>
    obtain ⟨s, v⟩ := p
    cases hsc : serviceCost plan s v acc with
    | error e => simp [firstPass, hsc]
    | ok out =>
      obtain ⟨c, acc2⟩ := out
      simp only [List.cons_append, firstPass, hsc, List.append_eq, ih acc2]
      cases h1 : firstPass plan rest acc2 with
      | error e => rfl
      | ok out1 =>
        obtain ⟨r1, a1⟩ := out1
        cases h2 : firstPass plan ys a1 with
        | error e => simp [h2]
        | ok out2 => obtain ⟨r2, a2⟩ := out2; simp [h2]

/-- The first pass records exactly one cost per usage entry, in order. -/
theorem firstPass_length {plan : InsurancePlan} {usage : List (Service × ℕ)}
    {r : List (Service × ℚ)} {acc aEnd : ℚ}
    (h : firstPass plan usage acc = .ok (r, aEnd)) : r.length = usage.length := by
  induction usage generalizing acc r aEnd with
  | nil =>
    simp only [firstPass, Except.ok.injEq, Prod.mk.injEq] at h
    obtain ⟨h1, -⟩ := h
    subst h1
    rfl
  | cons p rest ih =>
    obtain ⟨s, v⟩ := p
    cases hsc : serviceCost plan s v acc with
    | error e => simp [firstPass, hsc] at h
    | ok out =>
      obtain ⟨c, acc2⟩ := out
      cases hrest : firstPass plan rest acc2 with
      | error e => simp [firstPass, hsc, hrest] at h
      | ok out2 =>
        obtain ⟨r2, a2⟩ := out2
        simp only [firstPass, hsc, hrest, Except.ok.injEq, Prod.mk.injEq] at h
        obtain ⟨h1, -⟩ := h
        subst h1
        simp [ih hrest]

/-! ## Lemmas about the normalization pass and the aggregator -/

/-- When the raw total is within the limit, the second pass returns the raw
costs unchanged. -/
theorem calculate_service_costs_of_le {plan : InsurancePlan}
    {usage : List (Service × ℕ)} {r : List (Service × ℚ)} {aEnd : ℚ}
    (h : firstPass plan usage 0 = .ok (r, aEnd))
    (hle : sumCosts r ≤ plan.oop_individual) :
    calculate_service_costs plan usage = .ok r := by
  simp only [calculate_service_costs, h]
  rw [if_neg (not_lt.mpr hle)]

/-- When the raw total exceeds a non-negative limit, the second pass scales
every cost by `oop / total` and the scaled costs sum exactly to the limit. -/
theorem calculate_service_costs_of_gt {plan : InsurancePlan}
    {usage : List (Service × ℕ)} {r : List (Service × ℚ)} {aEnd : ℚ}
    (h : firstPass plan usage 0 = .ok (r, aEnd))
    (hoop : 0 ≤ plan.oop_individual) (hgt : plan.oop_individual < sumCosts r) :
    calculate_service_costs plan usage =
      .ok (r.map fun p => (p.1, p.2 * (plan.oop_individual / sumCosts r))) ∧
    sumCosts (r.map fun p => (p.1, p.2 * (plan.oop_individual / sumCosts r))) =
      plan.oop_individual := by
  have hne : sumCosts r ≠ 0 := ne_of_gt (lt_of_le_of_lt hoop hgt)
  have hsum : sumCosts (r.map fun p => (p.1, p.2 * (plan.oop_individual / sumCosts r))) =
      plan.oop_individual := by
    rw [sumCosts_scale]
    field_simp
  refine ⟨?_, hsum⟩
  simp only [calculate_service_costs, h]
  rw [if_pos hgt, if_neg hne, hsum]
  norm_num

/-- Whenever the second pass returns at all, the returned costs sum to at
most the limit plus the 0.01 assertion tolerance. -/
theorem calculate_service_costs_sum_le {plan : InsurancePlan}
    {usage : List (Service × ℕ)} {costs : List (Service × ℚ)}
    (h : calculate_service_costs plan usage = .ok costs) :
    sumCosts costs ≤ plan.oop_individual + 1 / 100 := by
  cases hfp : firstPass plan usage 0 with
  | error e => simp [calculate_service_costs, hfp] at h
  | ok out =>
    obtain ⟨r, aEnd⟩ := out
    simp only [calculate_service_costs, hfp] at h
    split at h
    · split at h
      · cases h
      · split at h
        · rename_i habs
          obtain rfl := Except.ok.inj h
          rw [abs_lt] at habs
          linarith [habs.2]
        · cases h
    · rename_i hnlt
      obtain rfl := Except.ok.inj h
      linarith [not_lt.mp hnlt]

/-- If the allocator succeeded with a medical total within the assertion
tolerance, the aggregator succeeds and returns premium, medical total and
their sum. -/
theorem calculate_annual_cost_ok {plan : InsurancePlan}
    {usage : List (Service × ℕ)} {sc : List (Service × ℚ)}
    (h : calculate_service_costs plan usage = .ok sc)
    (hle : sumCosts sc ≤ plan.oop_individual + 1 / 100) :
    calculate_annual_cost plan usage =
      .ok ⟨plan.premium * 12, sumCosts sc, plan.premium * 12 + sumCosts sc, sc⟩ := by
  simp only [calculate_annual_cost, h]
  rw [if_pos (by linarith)]

/-- Whenever the aggregator returns at all, the returned total respects the
premium-plus-limit bound (with the 0.01 assertion tolerance). -/
theorem calculate_annual_cost_total_le {plan : InsurancePlan}
    {usage : List (Service × ℕ)} {a : AnnualCost}
    (h : calculate_annual_cost plan usage = .ok a) :
    a.total_cost ≤ plan.premium * 12 + plan.oop_individual + 1 / 100 := by
  cases hsc : calculate_service_costs plan usage with
  | error e => simp [calculate_annual_cost, hsc] at h
  | ok sc =>
    simp only [calculate_annual_cost, hsc] at h
    split at h
    · rename_i hcond
      obtain rfl := Except.ok.inj h
      simp only
      linarith
    · cases h

/-! ## Lemmas about the curve generator -/

/-- If every level's annual-cost computation succeeds, the sweep succeeds. -/
theorem curveTotals_complete {plan : InsurancePlan} {ls : List ℚ}
    (h : ∀ raw ∈ ls, ∃ a, calculate_annual_cost plan (curveUsage raw) = .ok a) :
    ∃ ts, curveTotals plan ls = .ok ts := by
  induction ls with
  | nil => exact ⟨[], rfl⟩
  | cons raw rest ih =>
    obtain ⟨a, ha⟩ := h raw (by simp)
    obtain ⟨ts, hts⟩ := ih fun x hx => h x (List.mem_cons_of_mem _ hx)
    exact ⟨a.total_cost :: ts, by simp [curveTotals, ha, hts]⟩

/-- The sweep records exactly one total per level. -/
theorem curveTotals_length {plan : InsurancePlan} {ls : List ℚ} {ts : List ℚ}
    (h : curveTotals plan ls = .ok ts) : ts.length = ls.length := by
  induction ls generalizing ts with
  | nil =>
    simp only [curveTotals, Except.ok.injEq] at h
    subst h
    rfl
  | cons raw rest ih =>
    cases ha : calculate_annual_cost plan (curveUsage raw) with
    | error e => simp [curveTotals, ha] at h
    | ok a =>
      cases hrest : curveTotals plan rest with
      | error e => simp [curveTotals, ha, hrest] at h
      | ok ts2 =>
        simp only [curveTotals, ha, hrest, Except.ok.injEq] at h
        subst h
        simp [ih hrest]

/-- The i-th recorded total is the annual total of the i-th level. -/
theorem curveTotals_get {plan : InsurancePlan} {ls ts : List ℚ}
    (h : curveTotals plan ls = .ok ts) {i : ℕ} {raw : ℚ}
    (hget : ls[i]? = some raw) :
    ∃ a, calculate_annual_cost plan (curveUsage raw) = .ok a ∧
      ts[i]? = some a.total_cost := by
  induction ls generalizing ts i with
  | nil => simp at hget
  | cons r0 rest ih =>
    cases ha : calculate_annual_cost plan (curveUsage r0) with
    | error e => simp [curveTotals, ha] at h
    | ok a =>
      cases hrest : curveTotals plan rest with
      | error e => simp [curveTotals, ha, hrest] at h
      | ok ts2 =>
        simp only [curveTotals, ha, hrest, Except.ok.injEq] at h
        subst h
        cases i with
        | zero =>
          simp only [List.getElem?_cons_zero, Option.some.injEq] at hget
          subst hget
          exact ⟨a, ha, by simp⟩
        | succ j =>
          simp only [List.getElem?_cons_succ] at hget
          obtain ⟨b, hb1, hb2⟩ := ih hrest hget
          exact ⟨b, hb1, by simpa using hb2⟩

/-- Every recorded total arises from one of the levels. -/
theorem curveTotals_mem {plan : InsurancePlan} {ls ts : List ℚ}
    (h : curveTotals plan ls = .ok ts) {t : ℚ} (ht : t ∈ ts) :
    ∃ raw ∈ ls, ∃ a, calculate_annual_cost plan (curveUsage raw) = .ok a ∧
      a.total_cost = t := by
  induction ls generalizing ts with
  | nil =>
    simp only [curveTotals, Except.ok.injEq] at h
    subst h
    cases ht
  | cons r0 rest ih =>
    cases ha : calculate_annual_cost plan (curveUsage r0) with
    | error e => simp [curveTotals, ha] at h
    | ok a =>
      cases hrest : curveTotals plan rest with
      | error e => simp [curveTotals, ha, hrest] at h
      | ok ts2 =>
        simp only [curveTotals, ha, hrest, Except.ok.injEq] at h
        subst h
        rcases List.mem_cons.mp ht with rfl | ht'
        · exact ⟨r0, by simp, a, ha, rfl⟩
        · obtain ⟨raw, hraw, b, hb1, hb2⟩ := ih hrest ht'
          exact ⟨raw, List.mem_cons_of_mem _ hraw, b, hb1, hb2⟩

/-! ## Lemmas about the synthesized levels and rounding -/

theorem medicalCostLevels_length (m : ℚ) (points : ℕ) :
    (medicalCostLevels m points).length = points + 1 := by
  simp [medicalCostLevels]

theorem medicalCostLevels_get (m : ℚ) {points i : ℕ} (hi : i < points + 1) :
    (medicalCostLevels m points)[i]? = some ((i : ℚ) * (m / points)) := by
  simp [medicalCostLevels, hi]

/-- Python's banker's rounding lands on a nearest integer: it is never more
than half a unit away from its argument. -/
theorem pyRound_dist_le (q : ℚ) : |(pyRound q : ℚ) - q| ≤ 1 / 2 := by
  have h0 : ((⌊q⌋ : ℤ) : ℚ) ≤ q := Int.floor_le q
  have h1 : q < ((⌊q⌋ : ℤ) : ℚ) + 1 := Int.lt_floor_add_one q
  unfold pyRound
  split_ifs with ha hb hc
  · rw [abs_le]
    constructor <;> linarith
  · rw [abs_le]
    push_cast
    constructor <;> linarith
  · rw [abs_le]
    constructor <;> linarith [not_lt.mp ha, not_lt.mp hb]
  · rw [abs_le]
    push_cast
    constructor <;> linarith [not_lt.mp ha, not_lt.mp hb]

/-- Python's rounding of a non-negative value is non-negative. -/
theorem pyRound_nonneg {q : ℚ} (hq : 0 ≤ q) : 0 ≤ pyRound q := by
  have h0 : 0 ≤ ⌊q⌋ := Int.floor_nonneg.mpr hq
  unfold pyRound
  split_ifs <;> omega

/-- Core success-and-bounds lemma: with a non-negative out-of-pocket limit
and complete rules for every non-zero-count category, both engine entry
points return `.ok` (no assertion fires) and both invariant bounds hold. -/
theorem engine_ok (plan : InsurancePlan) (usage : List (Service × ℕ))
    (hoop : 0 ≤ plan.oop_individual)
    (hres : ∀ p ∈ usage, p.2 ≠ 0 → ruleComplete plan p.1 = true) :
    ∃ costs a, calculate_service_costs plan usage = .ok costs ∧
      sumCosts costs ≤ plan.oop_individual + 1 / 100 ∧
      calculate_annual_cost plan usage = .ok a ∧
      a.total_cost ≤ plan.premium * 12 + plan.oop_individual + 1 / 100 := by
  obtain ⟨r, aEnd, hfp⟩ := firstPass_complete hres 0
  by_cases hle : sumCosts r ≤ plan.oop_individual
  · have hcsc := calculate_service_costs_of_le hfp hle
    have hsum : sumCosts r ≤ plan.oop_individual + 1 / 100 := by linarith
    exact ⟨r, _, hcsc, hsum, calculate_annual_cost_ok hcsc hsum,
      calculate_annual_cost_total_le (calculate_annual_cost_ok hcsc hsum)⟩
  · push_neg at hle
    obtain ⟨hcsc, hsum⟩ := calculate_service_costs_of_gt hfp hoop hle
    have hle' : sumCosts (r.map fun p =>
        (p.1, p.2 * (plan.oop_individual / sumCosts r))) ≤
        plan.oop_individual + 1 / 100 := by
      rw [hsum]
      linarith
    exact ⟨_, _, hcsc, hle', calculate_annual_cost_ok hcsc hle',
      calculate_annual_cost_total_le (calculate_annual_cost_ok hcsc hle')⟩

/-! ## Claim theorems -/

/-- C1: for every plan with non-negative premium, deductible and
out-of-pocket limit and every usage vector of non-negative integer counts
whose categories resolve to rules, the sum of the per-category costs
returned by `calculate_service_costs` is at most
`plan.oop_individual + 0.01`, and the aggregator's `total_cost` is at most
`premium * 12 + plan.oop_individual + 0.01`; both functions return `.ok`,
i.e. neither of the two embedded assertion checks fires. -/
theorem claim_C1_oop_invariant (plan : InsurancePlan)
    (usage : List (Service × ℕ))
    (hprem : 0 ≤ plan.premium) (hded : 0 ≤ plan.deductible_overall)
    (hoop : 0 ≤ plan.oop_individual)
    (hres : ∀ p ∈ usage, p.2 ≠ 0 → ruleComplete plan p.1 = true) :
    ∃ costs a, calculate_service_costs plan usage = .ok costs ∧
      sumCosts costs ≤ plan.oop_individual + 1 / 100 ∧
      calculate_annual_cost plan usage = .ok a ∧
      a.total_cost ≤ plan.premium * 12 + plan.oop_individual + 1 / 100 :=
  engine_ok plan usage hoop hres

/-- Witness for C1 at the §8 scenario plan and usage. -/
theorem claim_C1_oop_invariant_witness :
    (0 ≤ plan3.premium ∧ 0 ≤ plan3.deductible_overall ∧
      0 ≤ plan3.oop_individual ∧
      ∀ p ∈ usage3, p.2 ≠ 0 → ruleComplete plan3 p.1 = true) ∧
    (∃ costs a, calculate_service_costs plan3 usage3 = .ok costs ∧
      sumCosts costs ≤ plan3.oop_individual + 1 / 100 ∧
      calculate_annual_cost plan3 usage3 = .ok a ∧
      a.total_cost ≤ plan3.premium * 12 + plan3.oop_individual + 1 / 100) := by
  have h1 : 0 ≤ plan3.premium := by norm_num [plan3]
  have h2 : 0 ≤ plan3.deductible_overall := by norm_num [plan3]
  have h3 : 0 ≤ plan3.oop_individual := by norm_num [plan3]
  have h4 : ∀ p ∈ usage3, p.2 ≠ 0 → ruleComplete plan3 p.1 = true := by decide
  exact ⟨⟨h1, h2, h3, h4⟩, claim_C1_oop_invariant plan3 usage3 h1 h2 h3 h4⟩

/-- C2: a deductible-subject category with a plain coinsurance rule,
processed when the accumulator holds `d`, is charged exactly as the spec
says: with `remaining = max 0 (deductible - d)`, if `remaining > 0` the
cost is `min(base, remaining) + (base - min(base, remaining)) * co/100` and
the accumulator grows by `min(base, remaining)`; if `remaining = 0` the
cost is `base * co/100` and the accumulator is unchanged. -/
theorem claim_C2_deductible_charging (plan : InsurancePlan) (s : Service)
    (v : ℕ) (d : ℚ) (rule : InNetwork) (co : ℚ)
    (hv : v ≠ 0)
    (hrule : plan.cost_sharing s = some rule)
    (hcp : rule.copay = none)
    (hco : rule.coinsurance = some co)
    (hdrug : s ≠ .generic_drugs ∧ s ≠ .specialty_drugs)
    (hcov : s ∉ plan.services_covered_before_deductible) :
    serviceCost plan s v d =
      if 0 < max 0 (plan.deductible_overall - d) then
        .ok (min (base_service_costs s * v) (max 0 (plan.deductible_overall - d)) +
              (base_service_costs s * v -
                min (base_service_costs s * v) (max 0 (plan.deductible_overall - d))) *
                (co / 100),
             d + min (base_service_costs s * v) (max 0 (plan.deductible_overall - d)))
      else .ok (base_service_costs s * v * (co / 100), d) := by
  have hdrug' : ¬(s = Service.generic_drugs ∨ s = Service.specialty_drugs) := by
    simp [hdrug.1, hdrug.2]
  simp only [serviceCost, if_neg hv, hrule, hcp, if_neg hdrug', if_neg hcov, hco]
  by_cases hrem : 0 < max 0 (plan.deductible_overall - d)
  · rw [if_pos hrem, if_pos hrem]
    by_cases hlt : min (base_service_costs s * v) (max 0 (plan.deductible_overall - d)) <
        base_service_costs s * v
    · rw [if_pos hlt]
    · rw [if_neg hlt]
      have heq : min (base_service_costs s * (v : ℚ)) (max 0 (plan.deductible_overall - d)) =
          base_service_costs s * (v : ℚ) :=
        le_antisymm (min_le_left _ _) (not_lt.mp hlt)
      rw [heq]
      simp
  · rw [if_neg hrem, if_neg hrem]

/-- Witness for C2 at the §8 plan, specialist with 3 visits, fresh
accumulator. -/
theorem claim_C2_deductible_charging_witness :
    (plan3.cost_sharing .specialist = some ⟨none, some 20, none, none, none⟩ ∧
      Service.specialist ∉ plan3.services_covered_before_deductible) ∧
    serviceCost plan3 .specialist 3 0 = .ok (750, 750) := by
  refine ⟨⟨rfl, by decide⟩, ?_⟩
  have h := claim_C2_deductible_charging plan3 .specialist 3 0
    ⟨none, some 20, none, none, none⟩ 20 (by decide) rfl rfl rfl
    ⟨by decide, by decide⟩ (by decide)
  rw [h]
  norm_num [plan3, base_service_costs, min_def, max_def]

/-- C3: on the §8 concrete scenario (premium $400/mo, deductible $1000,
out-of-pocket limit $5000, primary care $30 copay, specialist 20 percent
deductible-subject coinsurance; 2 primary-care visits then 3 specialist
visits) the allocator returns $60 and $750, the medical total is $810 and
the annual total is $4800 + $810 = $5610. -/
theorem claim_C3_concrete_scenario :
    calculate_service_costs plan3 usage3 =
      .ok [(.primary_care, 60), (.specialist, 750)] ∧
    calculate_annual_cost plan3 usage3 =
      .ok ⟨4800, 810, 5610, [(.primary_care, 60), (.specialist, 750)]⟩ := by
  constructor <;>
    norm_num +decide [calculate_annual_cost, calculate_service_costs, firstPass,
      serviceCost, plan3, usage3, base_service_costs, sumCosts, min_def, max_def]

/-- C10: whenever a category's resolved in-network rule contains a `copay`
field, the first-pass step takes the flat-copay branch (`cost = visits *
copay`, accumulator untouched) regardless of deductible-exemption status;
consequently the copay sub-branches inside the deductible-subject path are
dead: the step function is extensionally equal to `serviceCostSimpl`, the
variant with those sub-branches removed. -/
theorem claim_C10_copay_branch :
    (∀ (plan : InsurancePlan) (s : Service) (v : ℕ) (acc : ℚ)
        (rule : InNetwork) (cp : ℚ),
        plan.cost_sharing s = some rule → rule.copay = some cp →
        serviceCost plan s v acc = .ok ((v : ℚ) * cp, acc)) ∧
    ∀ (plan : InsurancePlan) (s : Service) (v : ℕ) (acc : ℚ),
      serviceCost plan s v acc = serviceCostSimpl plan s v acc := by
  constructor
  · intro plan s v acc rule cp hrule hcp
    by_cases hv : v = 0
    · subst hv
      simp [serviceCost]
    · simp [serviceCost, hv, hrule, hcp]
  · intro plan s v acc
    by_cases hv : v = 0
    · simp [serviceCost, serviceCostSimpl, hv]
    · cases hcs : plan.cost_sharing s with
      | none => simp [serviceCost, serviceCostSimpl, hv, hcs]
      | some r =>
        cases hcp : r.copay with
        | some cp => simp [serviceCost, serviceCostSimpl, hv, hcs, hcp]
        | none => simp [serviceCost, serviceCostSimpl, hv, hcs, hcp]

/-- Witness for C10: the copay branch fires on the §8 plan's primary care,
and the simplified step agrees with the original on a concrete
deductible-subject run. -/
theorem claim_C10_copay_branch_witness :
    plan3.cost_sharing .primary_care = some ⟨some 30, none, none, none, none⟩ ∧
    serviceCost plan3 .primary_care 2 0 = .ok (60, 0) ∧
    serviceCost plan3 .specialist 3 7 = serviceCostSimpl plan3 .specialist 3 7 := by
  refine ⟨rfl, ?_, claim_C10_copay_branch.2 plan3 .specialist 3 7⟩
  have h := claim_C10_copay_branch.1 plan3 .primary_care 2 0
    ⟨some 30, none, none, none, none⟩ 30 rfl rfl
  rw [h]
  norm_num

/-- C4 counterexample: with deductible $500, category A = primary care
(2 visits, base $300) at 0 percent coinsurance and category B = urgent care
(2 visits, base $400) at 50 percent coinsurance, out-of-pocket limit
$10000, the allocations are ($300, $300) in order A-then-B (sum $600) and
($400, $100) in order B-then-A (sum $500): the category-cost sum is NOT
invariant under reversal, refuting C4 as stated. -/
theorem claim_C4_counterexample :
    calculate_service_costs (mkPlan4 0 50 10000)
      [(.primary_care, 2), (.urgent_care, 2)] =
      .ok [(.primary_care, 300), (.urgent_care, 300)] ∧
    calculate_service_costs (mkPlan4 0 50 10000)
      [(.urgent_care, 2), (.primary_care, 2)] =
      .ok [(.urgent_care, 400), (.primary_care, 100)] ∧
    sumCosts [(.primary_care, (300 : ℚ)), (.urgent_care, 300)] ≠
      sumCosts [(.urgent_care, (400 : ℚ)), (.primary_care, 100)] := by
  refine ⟨?_, ?_, ?_⟩ <;>
    norm_num +decide [calculate_service_costs, firstPass, serviceCost, mkPlan4,
      base_service_costs, sumCosts, min_def, max_def]

/-- C4 amended: with deductible $500, the two deductible-subject
plain-coinsurance categories A (base $300) and B (base $400) sharing one
coinsurance percent `p ≠ 100`, and an out-of-pocket limit high enough that
normalization does not trigger, processing A then B charges A exactly $300
and B $200 plus coinsurance on the remaining $200 of base; reversing the
order changes both categories' individual costs, and the category-cost sum
is the same in both orders. -/
theorem claim_C4_order_reversal (p limit : ℚ) (hp0 : 0 ≤ p) (hp : p ≠ 100)
    (hl : 500 + 200 * (p / 100) ≤ limit) :
    calculate_service_costs (mkPlan4 p p limit)
      [(.primary_care, 2), (.urgent_care, 2)] =
      .ok [(.primary_care, 300), (.urgent_care, 200 + 200 * (p / 100))] ∧
    calculate_service_costs (mkPlan4 p p limit)
      [(.urgent_care, 2), (.primary_care, 2)] =
      .ok [(.urgent_care, 400), (.primary_care, 100 + 200 * (p / 100))] ∧
    (300 : ℚ) ≠ 100 + 200 * (p / 100) ∧
    (200 + 200 * (p / 100) : ℚ) ≠ 400 ∧
    sumCosts [(.primary_care, (300 : ℚ)), (.urgent_care, 200 + 200 * (p / 100))] =
      sumCosts [(.urgent_care, (400 : ℚ)), (.primary_care, 100 + 200 * (p / 100))] := by
  have hoop : (mkPlan4 p p limit).oop_individual = limit := rfl
  have h1 : firstPass (mkPlan4 p p limit) [(.primary_care, 2), (.urgent_care, 2)] 0 =
      .ok ([(.primary_care, 300), (.urgent_care, 200 + 200 * (p / 100))], 500) := by
    norm_num +decide [firstPass, serviceCost, mkPlan4, base_service_costs,
      min_def, max_def]
  have h2 : firstPass (mkPlan4 p p limit) [(.urgent_care, 2), (.primary_care, 2)] 0 =
      .ok ([(.urgent_care, 400), (.primary_care, 100 + 200 * (p / 100))], 500) := by
    norm_num +decide [firstPass, serviceCost, mkPlan4, base_service_costs,
      min_def, max_def]
  have hs1 : sumCosts [(.primary_care, (300 : ℚ)),
      (.urgent_care, 200 + 200 * (p / 100))] = 500 + 200 * (p / 100) := by
    simp [sumCosts]
    ring
  have hs2 : sumCosts [(.urgent_care, (400 : ℚ)),
      (.primary_care, 100 + 200 * (p / 100))] = 500 + 200 * (p / 100) := by
    simp [sumCosts]
    ring
  refine ⟨?_, ?_, ?_, ?_, ?_⟩
  · exact calculate_service_costs_of_le h1 (by rw [hoop, hs1]; exact hl)
  · exact calculate_service_costs_of_le h2 (by rw [hoop, hs2]; exact hl)
  · intro h
    apply hp
    field_simp at h
    linarith
  · intro h
    apply hp
    field_simp at h
    linarith
  · rw [hs1, hs2]

/-- Witness for the amended C4 at coinsurance 50 percent. -/
theorem claim_C4_order_reversal_witness :
    ((50 : ℚ) ≠ 100 ∧ 500 + 200 * ((50 : ℚ) / 100) ≤ 10000) ∧
    calculate_service_costs (mkPlan4 50 50 10000)
      [(.primary_care, 2), (.urgent_care, 2)] =
      .ok [(.primary_care, 300), (.urgent_care, 300)] ∧
    calculate_service_costs (mkPlan4 50 50 10000)
      [(.urgent_care, 2), (.primary_care, 2)] =
      .ok [(.urgent_care, 400), (.primary_care, 200)] := by
  have h := claim_C4_order_reversal 50 10000 (by norm_num) (by norm_num)
    (by norm_num)
  refine ⟨⟨by norm_num, by norm_num⟩, ?_, ?_⟩
  · rw [h.1]
    norm_num
  · rw [h.2.1]
    norm_num

/-- C5: whenever the raw accumulated total exceeds the (non-negative)
out-of-pocket limit, the allocator returns every raw category cost
multiplied by the single ratio `oop / total` — copay-, coinsurance- and
deductible-derived amounts alike, with no re-run of the deductible logic —
the new sum equals the limit exactly, and the ratio of any two category
costs is preserved (stated multiplicatively). -/
theorem claim_C5_normalization (plan : InsurancePlan)
    (usage : List (Service × ℕ)) (r : List (Service × ℚ)) (aEnd : ℚ)
    (hfp : firstPass plan usage 0 = .ok (r, aEnd))
    (hoop : 0 ≤ plan.oop_individual)
    (hgt : plan.oop_individual < sumCosts r) :
    calculate_service_costs plan usage =
      .ok (r.map fun p => (p.1, p.2 * (plan.oop_individual / sumCosts r))) ∧
    sumCosts (r.map fun p => (p.1, p.2 * (plan.oop_individual / sumCosts r))) =
      plan.oop_individual ∧
    ∀ (i j : ℕ) (a b a2 b2 : Service × ℚ), r[i]? = some a → r[j]? = some b →
      (r.map fun p => (p.1, p.2 * (plan.oop_individual / sumCosts r)))[i]? = some a2 →
      (r.map fun p => (p.1, p.2 * (plan.oop_individual / sumCosts r)))[j]? = some b2 →
      a2.2 * b.2 = a.2 * b2.2 := by
  obtain ⟨h1, h2⟩ := calculate_service_costs_of_gt hfp hoop hgt
  refine ⟨h1, h2, ?_⟩
  intro i j a b a2 b2 ha hb ha2 hb2
  rw [List.getElem?_map, ha, Option.map_some'] at ha2
  rw [List.getElem?_map, hb, Option.map_some'] at hb2
  obtain rfl := Option.some.inj ha2
  obtain rfl := Option.some.inj hb2
  simp only
  ring

/-- Witness for C5: the §8 usage on the $100-limit plan is scaled by
100/810, giving 200/27 and 2500/27. -/
theorem claim_C5_normalization_witness :
    (firstPass plan5w usage3 0 =
        .ok ([(.primary_care, 60), (.specialist, 750)], 750) ∧
      (0 : ℚ) ≤ plan5w.oop_individual ∧
      plan5w.oop_individual < sumCosts [(.primary_care, (60 : ℚ)), (.specialist, 750)]) ∧
    calculate_service_costs plan5w usage3 =
      .ok [(.primary_care, 200 / 27), (.specialist, 2500 / 27)] := by
  have hfp : firstPass plan5w usage3 0 =
      .ok ([(.primary_care, 60), (.specialist, 750)], 750) := by
    norm_num +decide [firstPass, serviceCost, plan5w, usage3,
      base_service_costs, min_def, max_def]
  have h2 : (0 : ℚ) ≤ plan5w.oop_individual := by norm_num [plan5w]
  have h3 : plan5w.oop_individual <
      sumCosts [(.primary_care, (60 : ℚ)), (.specialist, 750)] := by
    norm_num [plan5w, sumCosts]
  have h := (claim_C5_normalization plan5w usage3 _ _ hfp h2 h3).1
  refine ⟨⟨hfp, h2, h3⟩, ?_⟩
  rw [h]
  norm_num [sumCosts, plan5w]

/-- C6: a usage vector containing a non-zero-count category whose rule
cannot be resolved (or whose required drug-tier sub-field is absent) makes
the allocator fail with the Python `KeyError` — the behaviour the spec
labels `ConfigurationError` — aborting the allocation, so no partial or
garbage cost mapping reaches the caller (and the aggregator propagates the
same failure). -/
theorem claim_C6_configuration_error (plan : InsurancePlan)
    (usage : List (Service × ℕ)) (s : Service) (v : ℕ)
    (hmem : (s, v) ∈ usage) (hv : v ≠ 0)
    (hu : unresolvable plan s = true) :
    calculate_service_costs plan usage = .error .keyError ∧
    calculate_annual_cost plan usage = .error .keyError := by
  have h := firstPass_unresolvable hmem hv hu 0
  exact ⟨by simp [calculate_service_costs, h],
    by simp [calculate_annual_cost, calculate_service_costs, h]⟩

/-- Witness for C6: a plan without a specialist rule fails on one
specialist visit. -/
theorem claim_C6_configuration_error_witness :
    ((Service.specialist, 1) ∈ [((Service.specialist : Service), 1)] ∧
      (1 : ℕ) ≠ 0 ∧ unresolvable plan6w .specialist = true) ∧
    calculate_service_costs plan6w [(.specialist, 1)] = .error .keyError := by
  refine ⟨⟨by simp, by decide, by decide⟩, ?_⟩
  exact (claim_C6_configuration_error plan6w [(.specialist, 1)] .specialist 1
    (by simp) (by decide) (by decide)).1

/-- C7: a category handled by a flat-copay or drug-tier rule never changes
the deductible accumulator: inserting it anywhere into a usage vector
leaves every other recorded pre-normalization cost and the final
accumulator exactly unchanged. -/
theorem claim_C7_copay_drug_frame (plan : InsurancePlan) (s : Service)
    (n : ℕ) (hneu : copayOrDrugRule plan s = true)
    (us1 us2 : List (Service × ℕ)) (a0 aEnd : ℚ) (r : List (Service × ℚ))
    (h : firstPass plan (us1 ++ us2) a0 = .ok (r, aEnd)) :
    ∃ c r1 r2, r = r1 ++ r2 ∧ r1.length = us1.length ∧
      firstPass plan (us1 ++ (s, n) :: us2) a0 =
        .ok (r1 ++ (s, c) :: r2, aEnd) := by
  have happ := firstPass_append plan us1 us2 a0
  rw [h] at happ
  cases h1 : firstPass plan us1 a0 with
  | error e => simp [h1] at happ
  | ok out1 =>
    obtain ⟨r1, a1⟩ := out1
    cases h2 : firstPass plan us2 a1 with
    | error e => simp [h1, h2] at happ
    | ok out2 =>
      obtain ⟨r2, a2⟩ := out2
      simp only [h1, h2, Except.ok.injEq, Prod.mk.injEq] at happ
      obtain ⟨rfl, rfl⟩ := happ
      obtain ⟨c, hc⟩ := serviceCost_neutral hneu n a1
      refine ⟨c, r1, r2, rfl, firstPass_length h1, ?_⟩
      rw [firstPass_append, h1]
      simp [firstPass, hc, h2]

/-- Witness for C7: inserting 2 primary-care visits (copay rule) after the
specialist visits of the §8 scenario leaves the specialist cost and the
final accumulator unchanged. -/
theorem claim_C7_copay_drug_frame_witness :
    (copayOrDrugRule plan3 .primary_care = true ∧
      firstPass plan3 ([(.specialist, 3)] ++ []) 0 =
        .ok ([(.specialist, 750)], 750)) ∧
    (∃ c r1 r2, [((Service.specialist : Service), (750 : ℚ))] = r1 ++ r2 ∧
      r1.length = [((Service.specialist : Service), (3 : ℕ))].length ∧
      firstPass plan3 ([(.specialist, 3)] ++ (.primary_care, 2) :: []) 0 =
        .ok (r1 ++ (.primary_care, c) :: r2, 750)) := by
  have hneu : copayOrDrugRule plan3 .primary_care = true := by decide
  have hfp : firstPass plan3 ([(.specialist, 3)] ++ []) 0 =
      .ok ([(.specialist, 750)], 750) := by
    norm_num +decide [firstPass, serviceCost, plan3, base_service_costs,
      min_def, max_def]
  exact ⟨⟨hneu, hfp⟩,
    claim_C7_copay_drug_frame plan3 .primary_care 2 hneu
      [(.specialist, 3)] [] 0 750 [(.specialist, 750)] hfp⟩

/-- C8: for any plan, `maxRawCost` and non-zero `pointCount`, the curve
generator produces exactly `pointCount + 1` raw-cost levels, evenly spaced
(`level i = i * maxRawCost / pointCount`, last level `maxRawCost`
inclusive); for each positive level the synthesized usage equals the
spec-side description (fixed tier percentage shares divided by base price,
rounded, unnamed categories zero); the rounding lands on a nearest integer
and maps non-negative values to non-negative counts; and a successful sweep
returns those levels with one total per level. -/
theorem claim_C8_curve_generator (plan : InsurancePlan) (maxRaw : ℚ)
    (points : ℕ) (hpts : points ≠ 0) :
    (medicalCostLevels maxRaw points).length = points + 1 ∧
    (∀ i : ℕ, i < points + 1 →
      (medicalCostLevels maxRaw points)[i]? = some ((i : ℚ) * (maxRaw / points))) ∧
    (medicalCostLevels maxRaw points)[points]? = some maxRaw ∧
    (∀ raw : ℚ, 0 < raw → curveUsage raw = curveUsageSpec raw) ∧
    (∀ q : ℚ, |(pyRound q : ℚ) - q| ≤ 1 / 2) ∧
    (∀ q : ℚ, 0 ≤ q → 0 ≤ pyRound q) ∧
    (∀ ms ts, generate_cost_curve_data plan maxRaw points = .ok (ms, ts) →
      ms = medicalCostLevels maxRaw points ∧ ts.length = points + 1) := by
  have hcast : ((points : ℚ)) ≠ 0 := Nat.cast_ne_zero.mpr hpts
  refine ⟨medicalCostLevels_length maxRaw points,
    fun i hi => medicalCostLevels_get maxRaw hi, ?_, ?_,
    pyRound_dist_le, fun q => pyRound_nonneg, ?_⟩
  · rw [medicalCostLevels_get maxRaw (Nat.lt_succ_self points)]
    congr 1
    field_simp
  · intro raw hraw
    simp only [curveUsage, curveUsageSpec, curveOrder, List.map]
    by_cases hl : raw ≤ 1000
    · simp [synthUsageRaw, tierShareSpec, lowTierCount, lowShareSpec,
        base_service_costs, hraw, hl]
    · by_cases hm : raw ≤ 5000
      · simp [synthUsageRaw, tierShareSpec, midTierCount, midShareSpec,
          base_service_costs, hraw, hl, hm]
      · simp [synthUsageRaw, tierShareSpec, highTierCount, highShareSpec,
          base_service_costs, hraw, hl, hm]
  · intro ms ts hgen
    cases hct : curveTotals plan (medicalCostLevels maxRaw points) with
    | error e => simp [generate_cost_curve_data, hct] at hgen
    | ok ts2 =>
      simp only [generate_cost_curve_data, hct, Except.ok.injEq,
        Prod.mk.injEq] at hgen
      obtain ⟨rfl, rfl⟩ := hgen
      exact ⟨rfl, by rw [curveTotals_length hct, medicalCostLevels_length]⟩

/-- Witness for C8 at the §8 plan, a $1000 sweep with 2 points. -/
theorem claim_C8_curve_generator_witness :
    (2 : ℕ) ≠ 0 ∧
    ((medicalCostLevels 1000 2).length = 2 + 1 ∧
      (medicalCostLevels 1000 2)[2]? = some 1000 ∧
      curveUsage 500 = curveUsageSpec 500) := by
  have h := claim_C8_curve_generator plan3 1000 2 (by decide)
  exact ⟨by decide, h.1, h.2.2.1, h.2.2.2.1 500 (by norm_num)⟩

/-- C9 counterexample: on `plan9` (premium $0, deductible $0, limit
$1,000,000; primary care $500 copay, every other category free) the default
sweep produces `totalCost` 2000 at level index 2 (raw $1000) and 1500 at
index 3 (raw $1500) — a strict decrease while both totals are far below
the out-of-pocket cap, refuting the claimed monotonicity below the cap. -/
theorem claim_C9_counterexample :
    (generate_cost_curve_data plan9 50000 100).map
        (fun pr => (pr.2[2]?, pr.2[3]?)) = .ok (some 2000, some 1500) ∧
    ¬((2000 : ℚ) ≤ 1500) ∧
    (2000 : ℚ) + 1 / 100 < plan9.premium * 12 + plan9.oop_individual := by
  have hoop : (0 : ℚ) ≤ plan9.oop_individual := by norm_num [plan9]
  have hall : ∀ s, ruleComplete plan9 s = true := by decide
  have hok : ∀ raw ∈ medicalCostLevels 50000 100,
      ∃ a, calculate_annual_cost plan9 (curveUsage raw) = .ok a := by
    intro raw _
    obtain ⟨c, a, -, -, ha, -⟩ :=
      engine_ok plan9 (curveUsage raw) hoop (fun p _ _ => hall p.1)
    exact ⟨a, ha⟩
  obtain ⟨ts, hts⟩ := curveTotals_complete hok
  have hget2 : (medicalCostLevels 50000 100)[2]? = some 1000 := by
    rw [medicalCostLevels_get 50000 (by norm_num : (2 : ℕ) < 100 + 1)]
    norm_num
  have hget3 : (medicalCostLevels 50000 100)[3]? = some 1500 := by
    rw [medicalCostLevels_get 50000 (by norm_num : (3 : ℕ) < 100 + 1)]
    norm_num
  obtain ⟨a2, ha2, hts2⟩ := curveTotals_get hts hget2
  obtain ⟨a3, ha3, hts3⟩ := curveTotals_get hts hget3
  have he2 : (calculate_annual_cost plan9 (curveUsage 1000)).map
      (fun a => a.total_cost) = .ok 2000 := by
    norm_num +decide [curveUsage, curveOrder, synthUsageRaw, lowTierCount,
      pyRound, max_def, Int.fract, Int.toNat, calculate_annual_cost,
      calculate_service_costs, firstPass, serviceCost, plan9,
      base_service_costs, sumCosts, min_def, Except.map]
  have he3 : (calculate_annual_cost plan9 (curveUsage 1500)).map
      (fun a => a.total_cost) = .ok 1500 := by
    norm_num +decide [curveUsage, curveOrder, synthUsageRaw, lowTierCount,
      midTierCount, pyRound, max_def, Int.fract, Int.toNat,
      calculate_annual_cost, calculate_service_costs, firstPass, serviceCost,
      plan9, base_service_costs, sumCosts, min_def, Except.map]
  rw [ha2] at he2
  rw [ha3] at he3
  simp only [Except.map, Except.ok.injEq] at he2 he3
  refine ⟨?_, by norm_num, by norm_num [plan9]⟩
  simp [generate_cost_curve_data, hts, hts2, hts3, he2, he3, Except.map]

/-- C9 amended: for every plan with a non-negative out-of-pocket limit and
a complete rule for every category, the sweep succeeds, every recorded
`totalCost` is at most `annualPremium + oopLimit + 0.01`, and at every
level whose uncapped medical total exceeds the limit the recorded total is
exactly `annualPremium + oopLimit` (the plateau); `totalCost` is NOT
guaranteed monotone below the cap, because the tier mix changes across
level boundaries. -/
theorem claim_C9_curve_bounds (plan : InsurancePlan) (maxRaw : ℚ)
    (points : ℕ) (hoop : 0 ≤ plan.oop_individual)
    (hcomp : ∀ s, ruleComplete plan s = true) :
    ∃ ts, generate_cost_curve_data plan maxRaw points =
        .ok (medicalCostLevels maxRaw points, ts) ∧
      (∀ t ∈ ts, t ≤ plan.premium * 12 + plan.oop_individual + 1 / 100) ∧
      (∀ (i : ℕ) (raw : ℚ) (r : List (Service × ℚ)) (aEnd : ℚ),
        (medicalCostLevels maxRaw points)[i]? = some raw →
        firstPass plan (curveUsage raw) 0 = .ok (r, aEnd) →
        plan.oop_individual < sumCosts r →
        ts[i]? = some (plan.premium * 12 + plan.oop_individual)) := by
  have hok : ∀ raw ∈ medicalCostLevels maxRaw points,
      ∃ a, calculate_annual_cost plan (curveUsage raw) = .ok a := by
    intro raw _
    obtain ⟨c, a, -, -, ha, -⟩ :=
      engine_ok plan (curveUsage raw) hoop (fun p _ _ => hcomp p.1)
    exact ⟨a, ha⟩
  obtain ⟨ts, hts⟩ := curveTotals_complete hok
  refine ⟨ts, by simp [generate_cost_curve_data, hts], ?_, ?_⟩
  · intro t ht
    obtain ⟨raw, -, a, ha, rfl⟩ := curveTotals_mem hts ht
    exact calculate_annual_cost_total_le ha
  · intro i raw r aEnd hget hfp hgt
    obtain ⟨hcsc, hsum⟩ := calculate_service_costs_of_gt hfp hoop hgt
    have hann := calculate_annual_cost_ok hcsc (by rw [hsum]; linarith)
    rw [hsum] at hann
    obtain ⟨a, ha, hts2⟩ := curveTotals_get hts hget
    rw [ha] at hann
    have ha2 := Except.ok.inj hann
    rw [hts2, ha2]

/-- Witness for the amended C9 on `plan9`, a $1000 sweep with one point. -/
theorem claim_C9_curve_bounds_witness :
    ((0 : ℚ) ≤ plan9.oop_individual ∧ ∀ s, ruleComplete plan9 s = true) ∧
    (∃ ts, generate_cost_curve_data plan9 1000 1 =
        .ok (medicalCostLevels 1000 1, ts) ∧
      (∀ t ∈ ts, t ≤ plan9.premium * 12 + plan9.oop_individual + 1 / 100) ∧
      (∀ (i : ℕ) (raw : ℚ) (r : List (Service × ℚ)) (aEnd : ℚ),
        (medicalCostLevels 1000 1)[i]? = some raw →
        firstPass plan9 (curveUsage raw) 0 = .ok (r, aEnd) →
        plan9.oop_individual < sumCosts r →
        ts[i]? = some (plan9.premium * 12 + plan9.oop_individual))) := by
  have h1 : (0 : ℚ) ≤ plan9.oop_individual := by norm_num [plan9]
  have h2 : ∀ s, ruleComplete plan9 s = true := by decide
  exact ⟨⟨h1, h2⟩, claim_C9_curve_bounds plan9 1000 1 h1 h2⟩

end InsuranceApp

